import Mathlib

/-!
Shallow embedding of the Items CRUD service
(repository `brief-ci-cd-semantic-release-mkdocs`).

The repository's `src/` holds the application shell (`src/app/main.py`)
and the route test suite (`src/tests/test_items_root.py`); the item model,
the persistence gateway and the five resource handlers live in modules
(`app.models.item`, `app.database`, `app.routes`) that are referenced by
`main.py` and the tests but whose files are not present.  Those parts are
therefore modelled from the spec, as marked on each definition.  The two
probe handlers `root` and `health` are embedded directly from
`src/app/main.py`.

Floating-point prices are modelled as rationals: every price constraint in
scope is an order comparison (`prix > 0`), which is exact on the sample
values used by the tests.
-/

namespace ItemsCrud

/-- Modelled from the spec (§3 Data model): an Item record with an
integer id assigned by the persistence gateway, a name `nom` and a
price `prix`. -/
structure Item where
  id : Nat
  nom : String
  prix : Rat
deriving DecidableEq, Repr

/-- Modelled from the spec (§2, §4): the visible state of the persistence
gateway — the stored items in insertion order, plus the auto-increment
counter that supplies the next fresh id. -/
structure Store where
  items : List Item
  nextId : Nat
deriving DecidableEq, Repr

/-- Modelled from the spec (§6, §7): the two client-error outcomes in
scope — a validation rejection (HTTP 422) and a not-found rejection
(HTTP 404) carrying a detail message. -/
inductive ApiError where
  | validation
  | notFound (detail : String)
deriving DecidableEq, Repr

/-- Modelled from the spec (§6): the HTTP status a client error maps to. -/
def ApiError.status : ApiError → Nat
  | .validation => 422
  | .notFound _ => 404

/-- Modelled from the spec (§4.1): the `nom` constraint — non-empty and
at most 255 characters. -/
def validNom (n : String) : Bool :=
  1 ≤ n.length && n.length ≤ 255

/-- Modelled from the spec (§4.1, §9): the `prix` constraint — strictly
greater than zero (zero and negative values rejected). -/
def validPrix (p : Rat) : Bool :=
  0 < p

/-- Modelled from the spec (§4.4): the create request payload; a missing
required field is represented by `none` and fails validation. -/
structure CreatePayload where
  nom : Option String
  prix : Option Rat
deriving DecidableEq, Repr

/-- Modelled from the spec (§4.5): the update request payload with zero
or more of `nom`, `prix`; absence is distinguishable from a value. -/
structure UpdatePayload where
  nom : Option String
  prix : Option Rat
deriving DecidableEq, Repr

/-- Modelled from the spec (§4.1, §4.4): a create payload is valid when
both required fields are present and each satisfies its constraint. -/
def validCreate (p : CreatePayload) : Bool :=
  match p.nom, p.prix with
  | some n, some q => validNom n && validPrix q
  | _, _ => false

/-- Modelled from the spec (§4.1, §4.5): an update payload is valid when
every field that is present satisfies its constraint. -/
def validUpdate (p : UpdatePayload) : Bool :=
  (match p.nom with
   | none => true
   | some n => validNom n) &&
  (match p.prix with
   | none => true
   | some q => validPrix q)

/-- Modelled from the spec (§4.2 List Items): return the stored items in
insertion order after skipping the first `skip` records; always succeeds,
even on an empty store, and performs no mutation. -/
def list_items (st : Store) (skip : Nat) : List Item :=
  st.items.drop skip

/-- Modelled from the spec (§4.3 Get Item by ID): the matching Item, or a
not-found error whose message contains "not found"; no mutation. -/
def get_item (st : Store) (i : Nat) : Except ApiError Item :=
  match st.items.find? (fun it => it.id == i) with
  | some it => .ok it
  | none => .error (.notFound "Item not found")

/-- Modelled from the spec (§4.4 Create Item): validate the payload; on
success assign the next fresh id, persist the record at the end of the
insertion order and bump the counter; on validation failure create no
record and leave the store unchanged. -/
def create_item (st : Store) (p : CreatePayload) :
    Except ApiError Item × Store :=
  match p.nom, p.prix with
  | some n, some q =>
      if validNom n && validPrix q then
        let it : Item := ⟨st.nextId, n, q⟩
        (.ok it, ⟨st.items ++ [it], st.nextId + 1⟩)
      else
        (.error .validation, st)
  | _, _ => (.error .validation, st)

/-- Modelled from the spec (§4.5 Update Item): look up by id — if absent,
not-found error; validate only the fields present in the payload; on
success apply only those fields, leaving the others and the rest of the
store unchanged; on validation failure change nothing. -/
def update_item (st : Store) (i : Nat) (p : UpdatePayload) :
    Except ApiError Item × Store :=
  match st.items.find? (fun it => it.id == i) with
  | none => (.error (.notFound "Item not found"), st)
  | some it =>
      if validUpdate p then
        let it' : Item :=
          ⟨it.id, p.nom.getD it.nom, p.prix.getD it.prix⟩
        (.ok it',
         ⟨st.items.map (fun j => if j.id == i then it' else j), st.nextId⟩)
      else
        (.error .validation, st)

/-- Modelled from the spec (§4.6 Delete Item): look up by id — if absent,
not-found error; if present, remove the record permanently and succeed
with an empty body. -/
def delete_item (st : Store) (i : Nat) : Except ApiError Unit × Store :=
  match st.items.find? (fun it => it.id == i) with
  | none => (.error (.notFound "Item not found"), st)
  | some _ => (.ok (), ⟨st.items.filter (fun it => it.id != i), st.nextId⟩)

/-- Modelled from the spec (§6): the HTTP status of a delete response —
204 on success, the error's status otherwise. -/
def deleteStatus (r : Except ApiError Unit) : Nat :=
  match r with
  | .ok _ => 204
  | .error e => e.status

/-- Modelled from the spec (§4.6, §6): the body of a delete response —
empty on success, the error detail otherwise. -/
def deleteBody (r : Except ApiError Unit) : String :=
  match r with
  | .ok _ => ""
  | .error .validation => "validation error"
  | .error (.notFound d) => d

/-- Substring test on character lists: `pat` occurs contiguously in `s`. -/
def containsSub (s pat : List Char) : Bool :=
  pat.isPrefixOf s ||
    match s with
    | [] => false
    | _ :: t => containsSub t pat

/-- Case-insensitive substring test, used to state the "message contains
\"not found\" (case-insensitive)" requirement of §4.3. -/
def containsCI (s pat : String) : Bool :=
  containsSub (s.data.map Char.toLower) (pat.data.map Char.toLower)

/-- Embedded from `src/app/main.py` (`root`): the constant body of
`GET /`. -/
def root : List (String × String) :=
  [("message", "Items CRUD API")]

/-- Embedded from `src/app/main.py` (`health`): the constant body of
`GET /health`. -/
def health : List (String × String) :=
  [("status", "healthy")]

/-- Embedded from `src/app/main.py`: the `root` handler takes no session
and performs no persistence operation, so dispatching `GET /` against a
store returns the constant body and threads the store through unchanged. -/
def handleRoot (st : Store) : List (String × String) × Store :=
  (root, st)

/-- Embedded from `src/app/main.py`: the `health` handler takes no
session and performs no persistence operation, so dispatching
`GET /health` against a store returns the constant body and threads the
store through unchanged. -/
def handleHealth (st : Store) : List (String × String) × Store :=
  (health, st)

/-- Freshness invariant of the auto-increment policy (§3): every stored
id is below the counter. -/
def Store.WF (st : Store) : Prop :=
  ∀ it ∈ st.items, it.id < st.nextId

/-- Validation invariant (§3): every stored Item has `prix > 0` and
`1 ≤ len(nom) ≤ 255`. -/
def Store.Inv (st : Store) : Prop :=
  ∀ it ∈ st.items, 0 < it.prix ∧ 1 ≤ it.nom.length ∧ it.nom.length ≤ 255

instance (st : Store) : Decidable st.WF := by
  unfold Store.WF; infer_instance

instance (st : Store) : Decidable st.Inv := by
  unfold Store.Inv; infer_instance

/-- Modelled from the spec (§3, §4): one mutating request against the
service, used to state properties over whole request sequences. -/
inductive Op where
  | create (p : CreatePayload)
  | update (i : Nat) (p : UpdatePayload)
  | delete (i : Nat)
deriving DecidableEq, Repr

/-- The store after the service handles one request. -/
def applyOp (st : Store) : Op → Store
  | .create p => (create_item st p).2
  | .update i p => (update_item st i p).2
  | .delete i => (delete_item st i).2

/-- The ids assigned by the successful creates of a request sequence, in
order of assignment (a successful create assigns `st.nextId`). -/
def createdIds : Store → List Op → List Nat
  | _, [] => []
  | st, o :: os =>
      (match o with
       | .create p => if validCreate p then [st.nextId] else []
       | _ => []) ++ createdIds (applyOp st o) os

theorem nextId_le_applyOp (st : Store) (o : Op) :
    st.nextId ≤ (applyOp st o).nextId := by
  cases o with
  | create p =>
      rcases p with ⟨pn, pq⟩
      cases pn with
      | none => simp [applyOp, create_item]
      | some n =>
          cases pq with
          | none => simp [applyOp, create_item]
          | some q =>
              simp only [applyOp, create_item]
              by_cases h : (validNom n && validPrix q) = true
              · simp [h]
              · simp [h]
  | update i p =>
      simp only [applyOp, update_item]
      cases hf : st.items.find? (fun it => it.id == i) with
      | none => simp
      | some it =>
          by_cases h : validUpdate p = true
          · simp [h]
          · simp [h]
  | delete i =>
      simp only [applyOp, delete_item]
      cases hf : st.items.find? (fun it => it.id == i) with
      | none => simp
      | some it => simp

theorem le_createdIds (ops : List Op) (st : Store) :
    ∀ x ∈ createdIds st ops, st.nextId ≤ x := by
  induction ops generalizing st with
  | nil => intro x hx; simp [createdIds] at hx
  | cons o os ih =>
      intro x hx
      simp only [createdIds, List.mem_append] at hx
      rcases hx with hx | hx
      · cases o with
        | create p =>
            by_cases hv : validCreate p = true
            · simp [hv] at hx; omega
            · simp [hv] at hx
        | update i p => simp at hx
        | delete i => simp at hx
      · exact le_trans (nextId_le_applyOp st o) (ih (applyOp st o) x hx)

/-- C10: For every store state, handling `GET /` or `GET /health` performs
no persistence operation and leaves the item store completely unchanged,
and each returns its fixed constant body — `{"message": "Items CRUD API"}`
and `{"status": "healthy"}` respectively — independent of the store. -/
theorem c10_probe_handlers_constant (st : Store) :
    handleRoot st = ([("message", "Items CRUD API")], st) ∧
    handleHealth st = ([("status", "healthy")], st) :=
  ⟨rfl, rfl⟩

/-- C5: For every store of `n` items and every `k`, listing with `skip=k`
returns exactly `max(n-k,0)` items (Nat subtraction), in the original
insertion order starting at index `k`, and the empty sequence when
`k ≥ n` (hence also on an empty store). -/
theorem c5_list_skip (st : Store) (k : Nat) :
    list_items st k = st.items.drop k ∧
    (list_items st k).length = st.items.length - k ∧
    (∀ j : Nat, (list_items st k)[j]? = st.items[k + j]?) ∧
    (st.items.length ≤ k → list_items st k = []) := by
  refine ⟨rfl, ?_, fun j => ?_, fun h => ?_⟩
  · simp [list_items]
  · exact List.getElem?_drop st.items k j
  · exact List.drop_eq_nil_of_le h

/-- Witness for C5 at a concrete store of 3 items with `skip = 1`. -/
theorem c5_list_skip_witness :
    list_items ⟨[⟨1, "A", 5⟩, ⟨2, "B", 6⟩, ⟨3, "C", 7⟩], 4⟩ 1 =
      ([⟨1, "A", 5⟩, ⟨2, "B", 6⟩, ⟨3, "C", 7⟩] : List Item).drop 1 ∧
    (list_items ⟨[⟨1, "A", 5⟩, ⟨2, "B", 6⟩, ⟨3, "C", 7⟩], 4⟩ 1).length =
      ([⟨1, "A", 5⟩, ⟨2, "B", 6⟩, ⟨3, "C", 7⟩] : List Item).length - 1 ∧
    (∀ j : Nat,
      (list_items ⟨[⟨1, "A", 5⟩, ⟨2, "B", 6⟩, ⟨3, "C", 7⟩], 4⟩ 1)[j]? =
      ([⟨1, "A", 5⟩, ⟨2, "B", 6⟩, ⟨3, "C", 7⟩] : List Item)[1 + j]?) ∧
    (([⟨1, "A", 5⟩, ⟨2, "B", 6⟩, ⟨3, "C", 7⟩] : List Item).length ≤ 1 →
      list_items ⟨[⟨1, "A", 5⟩, ⟨2, "B", 6⟩, ⟨3, "C", 7⟩], 4⟩ 1 = []) :=
  c5_list_skip ⟨[⟨1, "A", 5⟩, ⟨2, "B", 6⟩, ⟨3, "C", 7⟩], 4⟩ 1

/-- C2: A create request whose payload has `prix ≤ 0`, or an empty or
over-length `nom`, or a missing required field, fails with a validation
error (HTTP 422) and creates no record: the store is unchanged, so the
listing observed after the failed request equals the listing before it. -/
theorem c2_invalid_create_rejected_no_write (st : Store) (p : CreatePayload)
    (h : p.nom = none ∨ p.prix = none ∨
         (∃ q, p.prix = some q ∧ q ≤ 0) ∨
         (∃ n, p.nom = some n ∧ (n.length = 0 ∨ 255 < n.length))) :
    create_item st p = (.error .validation, st) ∧
    ApiError.validation.status = 422 ∧
    ∀ k, list_items (create_item st p).2 k = list_items st k := by
  have hmain : create_item st p = (.error .validation, st) := by
    rcases p with ⟨pn, pq⟩
    rcases h with h | h | ⟨q, hq, hle⟩ | ⟨n, hn, hbad⟩
    · simp only at h; subst h
      cases pq <;> rfl
    · simp only at h; subst h
      cases pn <;> rfl
    · simp only at hq; subst hq
      cases pn with
      | none => rfl
      | some n =>
          have hv : validPrix q = false := by
            simp [validPrix, not_lt.mpr hle]
          simp [create_item, hv]
    · simp only at hn; subst hn
      cases pq with
      | none => rfl
      | some q =>
          have hv : validNom n = false := by
            simp only [validNom]
            rcases hbad with hb | hb
            · simp [hb]
            · have : ¬ n.length ≤ 255 := by omega
              simp [this]
          simp [create_item, hv]
  refine ⟨hmain, rfl, fun k => ?_⟩
  rw [hmain]

/-- Witness for C2 at a concrete store and the payload `prix = -10`. -/
theorem c2_invalid_create_rejected_no_write_witness :
    create_item ⟨[⟨1, "A", 5⟩], 2⟩ ⟨some "X", some (-10)⟩ =
      (.error .validation, ⟨[⟨1, "A", 5⟩], 2⟩) ∧
    ApiError.validation.status = 422 ∧
    ∀ k, list_items (create_item ⟨[⟨1, "A", 5⟩], 2⟩ ⟨some "X", some (-10)⟩).2 k =
      list_items ⟨[⟨1, "A", 5⟩], 2⟩ k :=
  c2_invalid_create_rejected_no_write ⟨[⟨1, "A", 5⟩], 2⟩ ⟨some "X", some (-10)⟩
    (Or.inr (Or.inr (Or.inl ⟨-10, rfl, by decide⟩)))

/-- C4: The price constraint is strict positivity: any create or update
supplying `prix ≤ 0` — in particular `prix = 0`, exactly as a negative
price — is rejected with a validation error, leaving the store
unchanged. -/
theorem c4_price_strictly_positive (st : Store) (n : String) (i : Nat)
    (q : Rat) (hq : q ≤ 0) (hex : ∃ it ∈ st.items, it.id = i) :
    validPrix q = false ∧
    create_item st ⟨some n, some q⟩ = (.error .validation, st) ∧
    update_item st i ⟨none, some q⟩ = (.error .validation, st) := by
  have hv : validPrix q = false := by
    simp [validPrix, not_lt.mpr hq]
  refine ⟨hv, by simp [create_item, hv], ?_⟩
  have hsome : (st.items.find? (fun it => it.id == i)).isSome := by
    rw [List.find?_isSome]
    rcases hex with ⟨it, hmem, hid⟩
    exact ⟨it, hmem, by simp [hid]⟩
  rcases Option.isSome_iff_exists.mp hsome with ⟨it, hfind⟩
  have hvu : validUpdate ⟨none, some q⟩ = false := by
    simp [validUpdate, hv]
  simp [update_item, hfind, hvu]

/-- Witness for C4 at `prix = 0` against a one-item store. -/
theorem c4_price_strictly_positive_witness :
    validPrix 0 = false ∧
    create_item ⟨[⟨1, "A", 5⟩], 2⟩ ⟨some "X", some 0⟩ =
      (.error .validation, ⟨[⟨1, "A", 5⟩], 2⟩) ∧
    update_item ⟨[⟨1, "A", 5⟩], 2⟩ 1 ⟨none, some 0⟩ =
      (.error .validation, ⟨[⟨1, "A", 5⟩], 2⟩) :=
  c4_price_strictly_positive ⟨[⟨1, "A", 5⟩], 2⟩ "X" 1 0 (by decide)
    ⟨⟨1, "A", 5⟩, by decide, rfl⟩

theorem find?_filter_ne (items : List Item) (i : Nat) :
    (items.filter (fun it => it.id != i)).find? (fun it => it.id == i) =
      none := by
  rw [List.find?_eq_none]
  intro x hx
  rw [List.mem_filter] at hx
  simpa using hx.2

/-- C1: For every valid pair (`1 ≤ len(nom) ≤ 255`, `prix > 0`), create
succeeds, assigns the store's next fresh id, and a subsequent get-by-id
with that id returns an Item whose `nom` and `prix` equal the submitted
values and whose id is the one assigned at creation. -/
theorem c1_create_then_get (st : Store) (n : String) (q : Rat)
    (hwf : st.WF) (h1 : 1 ≤ n.length) (h2 : n.length ≤ 255) (h3 : 0 < q) :
    ∃ it st',
      create_item st ⟨some n, some q⟩ = (.ok it, st') ∧
      it.nom = n ∧ it.prix = q ∧ it.id = st.nextId ∧
      get_item st' it.id = .ok it := by
  have hv : (validNom n && validPrix q) = true := by
    simp [validNom, validPrix, h1, h2, h3]
  refine ⟨⟨st.nextId, n, q⟩, ⟨st.items ++ [⟨st.nextId, n, q⟩], st.nextId + 1⟩,
    ?_, rfl, rfl, rfl, ?_⟩
  · simp [create_item, hv]
  · have hnone : st.items.find? (fun it => it.id == st.nextId) = none := by
      rw [List.find?_eq_none]
      intro x hx
      have hlt := hwf x hx
      simp only [beq_iff_eq]
      omega
    simp [get_item, List.find?_append, hnone]

/-- Witness for C1: creating `("A", 1)` in the empty store and reading it
back. -/
theorem c1_create_then_get_witness :
    ∃ it st',
      create_item ⟨[], 0⟩ ⟨some "A", some 1⟩ = (.ok it, st') ∧
      it.nom = "A" ∧ it.prix = 1 ∧ it.id = (0 : Nat) ∧
      get_item st' it.id = .ok it :=
  c1_create_then_get ⟨[], 0⟩ "A" 1 (by decide) (by decide) (by decide)
    (by decide)

/-- C3: On an existing item, an update payload in which some supplied
field violates validation (`prix ≤ 0`, or empty or over-length `nom`)
fails with a validation error and leaves the store — hence the stored
item's `nom` and `prix` — unchanged; a successful update applies exactly
the supplied fields, keeps the item's id and unsupplied fields, and
leaves every other stored item in place. -/
theorem c3_update_validation_and_partiality (st : Store) (i : Nat)
    (p : UpdatePayload) (it : Item)
    (hfind : st.items.find? (fun j => j.id == i) = some it) :
    (((∃ q, p.prix = some q ∧ q ≤ 0) ∨
      (∃ n, p.nom = some n ∧ (n.length = 0 ∨ 255 < n.length))) →
        update_item st i p = (.error .validation, st)) ∧
    (validUpdate p = true →
      update_item st i p =
        (.ok ⟨it.id, p.nom.getD it.nom, p.prix.getD it.prix⟩,
         ⟨st.items.map (fun j =>
            if j.id == i then ⟨it.id, p.nom.getD it.nom, p.prix.getD it.prix⟩
            else j), st.nextId⟩) ∧
      ∀ j ∈ st.items, j.id ≠ i → j ∈ (update_item st i p).2.items) := by
  constructor
  · intro hbad
    have hv : validUpdate p = false := by
      rcases p with ⟨pn, pq⟩
      rcases hbad with ⟨q, hq, hle⟩ | ⟨n, hn, hlen⟩
      · simp only at hq; subst hq
        simp [validUpdate, validPrix, not_lt.mpr hle]
      · simp only at hn; subst hn
        have : validNom n = false := by
          simp only [validNom]
          rcases hlen with hb | hb
          · simp [hb]
          · have : ¬ n.length ≤ 255 := by omega
            simp [this]
        simp [validUpdate, this]
    simp [update_item, hfind, hv]
  · intro hv
    have hupd : update_item st i p =
        (.ok ⟨it.id, p.nom.getD it.nom, p.prix.getD it.prix⟩,
         ⟨st.items.map (fun j =>
            if j.id == i then ⟨it.id, p.nom.getD it.nom, p.prix.getD it.prix⟩
            else j), st.nextId⟩) := by
      simp [update_item, hfind, hv]
    refine ⟨hupd, fun j hj hne => ?_⟩
    rw [hupd]
    exact List.mem_map.mpr ⟨j, hj, by simp [hne]⟩

/-- Witness for C3 on a one-item store, covering a rejected negative
price and a successful name-only update. -/
theorem c3_update_validation_and_partiality_witness :
    (((∃ q, (⟨none, some (-10)⟩ : UpdatePayload).prix = some q ∧ q ≤ 0) ∨
      (∃ n, (⟨none, some (-10)⟩ : UpdatePayload).nom = some n ∧
        (n.length = 0 ∨ 255 < n.length))) →
        update_item ⟨[⟨1, "Test", 50⟩], 2⟩ 1 ⟨none, some (-10)⟩ =
          (.error .validation, ⟨[⟨1, "Test", 50⟩], 2⟩)) ∧
    (validUpdate (⟨none, some (-10)⟩ : UpdatePayload) = true →
      update_item ⟨[⟨1, "Test", 50⟩], 2⟩ 1 ⟨none, some (-10)⟩ =
        (.ok ⟨1, (⟨none, some (-10)⟩ : UpdatePayload).nom.getD "Test",
              (⟨none, some (-10)⟩ : UpdatePayload).prix.getD 50⟩,
         ⟨([⟨1, "Test", 50⟩] : List Item).map (fun j =>
            if j.id == 1 then
              ⟨1, (⟨none, some (-10)⟩ : UpdatePayload).nom.getD "Test",
               (⟨none, some (-10)⟩ : UpdatePayload).prix.getD 50⟩
            else j), 2⟩) ∧
      ∀ j ∈ ([⟨1, "Test", 50⟩] : List Item), j.id ≠ 1 →
        j ∈ (update_item ⟨[⟨1, "Test", 50⟩], 2⟩ 1
              ⟨none, some (-10)⟩).2.items) :=
  c3_update_validation_and_partiality ⟨[⟨1, "Test", 50⟩], 2⟩ 1
    ⟨none, some (-10)⟩ ⟨1, "Test", 50⟩ (by decide)

/-- C6: Deleting an existing id twice in sequence: the first call
succeeds with status 204 and a completely empty body, the second call
fails with status 404 — delete is not idempotent in its success
status. -/
theorem c6_delete_twice (st : Store) (i : Nat)
    (hex : ∃ it ∈ st.items, it.id = i) :
    deleteStatus (delete_item st i).1 = 204 ∧
    deleteBody (delete_item st i).1 = "" ∧
    deleteStatus (delete_item (delete_item st i).2 i).1 = 404 := by
  have hsome : (st.items.find? (fun it => it.id == i)).isSome := by
    rw [List.find?_isSome]
    rcases hex with ⟨it, hmem, hid⟩
    exact ⟨it, hmem, by simp [hid]⟩
  rcases Option.isSome_iff_exists.mp hsome with ⟨it0, hf⟩
  have h1 : delete_item st i =
      (.ok (), ⟨st.items.filter (fun it => it.id != i), st.nextId⟩) := by
    simp [delete_item, hf]
  rw [h1]
  refine ⟨rfl, rfl, ?_⟩
  simp only [delete_item, find?_filter_ne, deleteStatus, ApiError.status]

/-- Witness for C6 deleting id 1 twice from a one-item store. -/
theorem c6_delete_twice_witness :
    deleteStatus (delete_item ⟨[⟨1, "Test", 10⟩], 2⟩ 1).1 = 204 ∧
    deleteBody (delete_item ⟨[⟨1, "Test", 10⟩], 2⟩ 1).1 = "" ∧
    deleteStatus
      (delete_item (delete_item ⟨[⟨1, "Test", 10⟩], 2⟩ 1).2 1).1 = 404 :=
  c6_delete_twice ⟨[⟨1, "Test", 10⟩], 2⟩ 1 ⟨⟨1, "Test", 10⟩, by decide, rfl⟩

/-- C7: Get-by-id on an id with no record fails with a not-found error
(status 404) whose message contains "not found" case-insensitively; in
particular, delete followed by get-by-id on the same id returns such a
not-found error. -/
theorem c7_get_not_found (st : Store) (i : Nat) :
    ((∀ it ∈ st.items, it.id ≠ i) →
      get_item st i = .error (.notFound "Item not found") ∧
      containsCI "Item not found" "not found" = true ∧
      (ApiError.notFound "Item not found").status = 404) ∧
    ((∃ it ∈ st.items, it.id = i) →
      get_item (delete_item st i).2 i =
        .error (.notFound "Item not found") ∧
      containsCI "Item not found" "not found" = true) := by
  constructor
  · intro habs
    have hnone : st.items.find? (fun it => it.id == i) = none := by
      rw [List.find?_eq_none]
      intro x hx
      simpa using habs x hx
    exact ⟨by simp [get_item, hnone], by decide, rfl⟩
  · intro hex
    have hsome : (st.items.find? (fun it => it.id == i)).isSome := by
      rw [List.find?_isSome]
      rcases hex with ⟨it, hmem, hid⟩
      exact ⟨it, hmem, by simp [hid]⟩
    rcases Option.isSome_iff_exists.mp hsome with ⟨it0, hf⟩
    have h1 : (delete_item st i).2 =
        ⟨st.items.filter (fun it => it.id != i), st.nextId⟩ := by
      simp [delete_item, hf]
    rw [h1]
    exact ⟨by simp only [get_item, find?_filter_ne], by decide⟩

/-- Witness for C7: a miss on id 9999, and delete-then-get on id 1. -/
theorem c7_get_not_found_witness :
    ((∀ it ∈ ([⟨1, "A", 5⟩] : List Item), it.id ≠ 9999) →
      get_item ⟨[⟨1, "A", 5⟩], 2⟩ 9999 =
        .error (.notFound "Item not found") ∧
      containsCI "Item not found" "not found" = true ∧
      (ApiError.notFound "Item not found").status = 404) ∧
    ((∃ it ∈ ([⟨1, "A", 5⟩] : List Item), it.id = 9999) →
      get_item (delete_item ⟨[⟨1, "A", 5⟩], 2⟩ 9999).2 9999 =
        .error (.notFound "Item not found") ∧
      containsCI "Item not found" "not found" = true) :=
  c7_get_not_found ⟨[⟨1, "A", 5⟩], 2⟩ 9999

theorem validUpdate_getD (p : UpdatePayload) (hv : validUpdate p = true)
    (n0 : String) (q0 : Rat) (hn1 : 1 ≤ n0.length) (hn2 : n0.length ≤ 255)
    (hq0 : 0 < q0) :
    0 < p.prix.getD q0 ∧ 1 ≤ (p.nom.getD n0).length ∧
      (p.nom.getD n0).length ≤ 255 := by
  rcases p with ⟨pn, pq⟩
  simp only [validUpdate, Bool.and_eq_true] at hv
  cases pn <;> cases pq <;>
    simp_all [validNom, validPrix]

/-- C8: Every Item present in the store satisfies `prix > 0` and
`1 ≤ len(nom) ≤ 255`, and this invariant is preserved by every operation
of the service: create, update and delete keep it on the resulting store,
and list and get only ever return items satisfying it. -/
theorem c8_validation_invariant (st : Store) (hinv : st.Inv) :
    (∀ p, ((create_item st p).2).Inv) ∧
    (∀ i p, ((update_item st i p).2).Inv) ∧
    (∀ i, ((delete_item st i).2).Inv) ∧
    (∀ k, ∀ it ∈ list_items st k,
      0 < it.prix ∧ 1 ≤ it.nom.length ∧ it.nom.length ≤ 255) ∧
    (∀ i it, get_item st i = .ok it →
      0 < it.prix ∧ 1 ≤ it.nom.length ∧ it.nom.length ≤ 255) := by
  refine ⟨fun p => ?_, fun i p => ?_, fun i => ?_, fun k it hit => ?_,
    fun i it hget => ?_⟩
  · rcases p with ⟨pn, pq⟩
    cases pn with
    | none => cases pq <;> exact hinv
    | some n =>
        cases pq with
        | none => exact hinv
        | some q =>
            by_cases hv : (validNom n && validPrix q) = true
            · simp only [create_item, hv, if_pos]
              intro x hx
              simp only [List.mem_append, List.mem_singleton] at hx
              rcases hx with hx | rfl
              · exact hinv x hx
              · simp only [validNom, validPrix, Bool.and_eq_true,
                  decide_eq_true_eq] at hv
                exact ⟨hv.2, hv.1.1, hv.1.2⟩
            · simp only [create_item, hv, if_neg, Bool.not_eq_true]
              exact hinv
  · cases hf : st.items.find? (fun j => j.id == i) with
    | none => simp only [update_item, hf]; exact hinv
    | some it0 =>
        by_cases hv : validUpdate p = true
        · simp only [update_item, hf, hv, if_pos]
          intro x hx
          simp only [List.mem_map] at hx
          rcases hx with ⟨j, hj, rfl⟩
          by_cases hji : (j.id == i) = true
          · simp only [hji, if_pos]
            have hold := hinv it0 (List.mem_of_find?_eq_some hf)
            have := validUpdate_getD p hv it0.nom it0.prix hold.2.1
              hold.2.2 hold.1
            exact this
          · simp only [hji, if_neg, Bool.not_eq_true]
            exact hinv j hj
        · simp only [update_item, hf, hv, if_neg, Bool.not_eq_true]
          exact hinv
  · cases hf : st.items.find? (fun j => j.id == i) with
    | none => simp only [delete_item, hf]; exact hinv
    | some it0 =>
        simp only [delete_item, hf]
        intro x hx
        exact hinv x (List.mem_of_mem_filter hx)
  · exact hinv it (List.mem_of_mem_drop hit)
  · simp only [get_item] at hget
    cases hf : st.items.find? (fun it => it.id == i) with
    | none => rw [hf] at hget; cases hget
    | some it1 =>
        rw [hf] at hget
        cases hget
        exact hinv _ (List.mem_of_find?_eq_some hf)

/-- Witness for C8 on a concrete one-item store satisfying the
invariant. -/
theorem c8_validation_invariant_witness :
    (∀ p, ((create_item ⟨[⟨1, "A", 5⟩], 2⟩ p).2).Inv) ∧
    (∀ i p, ((update_item ⟨[⟨1, "A", 5⟩], 2⟩ i p).2).Inv) ∧
    (∀ i, ((delete_item ⟨[⟨1, "A", 5⟩], 2⟩ i).2).Inv) ∧
    (∀ k, ∀ it ∈ list_items ⟨[⟨1, "A", 5⟩], 2⟩ k,
      0 < it.prix ∧ 1 ≤ it.nom.length ∧ it.nom.length ≤ 255) ∧
    (∀ i it, get_item ⟨[⟨1, "A", 5⟩], 2⟩ i = .ok it →
      0 < it.prix ∧ 1 ≤ it.nom.length ∧ it.nom.length ≤ 255) :=
  c8_validation_invariant ⟨[⟨1, "A", 5⟩], 2⟩ (by decide)

theorem create_item_nextId_of_valid (st : Store) (p : CreatePayload)
    (h : validCreate p = true) :
    (create_item st p).2.nextId = st.nextId + 1 := by
  rcases p with ⟨pn, pq⟩
  cases pn with
  | none => simp [validCreate] at h
  | some n =>
      cases pq with
      | none => simp [validCreate] at h
      | some q =>
          simp only [validCreate] at h
          simp [create_item, h]

theorem createdIds_pairwise (ops : List Op) (st : Store) :
    (createdIds st ops).Pairwise (· < ·) := by
  induction ops generalizing st with
  | nil => simp [createdIds]
  | cons o os ih =>
      cases o with
      | create p =>
          by_cases hv : validCreate p = true
          · simp only [createdIds, hv, if_pos, List.singleton_append]
            refine List.Pairwise.cons (fun x hx => ?_) (ih _)
            have hle := le_createdIds os (applyOp st (.create p)) x hx
            have hnext : (applyOp st (.create p)).nextId = st.nextId + 1 := by
              simpa [applyOp] using create_item_nextId_of_valid st p hv
            omega
          · simp only [createdIds, hv, if_neg, Bool.not_eq_true,
              List.nil_append]
            exact ih _
      | update i p =>
          simp only [createdIds, List.nil_append]
          exact ih _
      | delete i =>
          simp only [createdIds, List.nil_append]
          exact ih _

/-- C9: Within a single process lifetime, ids are never reused: along any
sequence of requests from a well-formed store, the ids assigned by
successful creates are strictly increasing — so each newly created item's
id differs from every id previously assigned (deleted or not) — and no id
already present in the store is ever assigned again. -/
theorem c9_ids_never_reused (st : Store) (ops : List Op) (hwf : st.WF) :
    (createdIds st ops).Pairwise (· < ·) ∧
    ∀ it ∈ st.items, it.id ∉ createdIds st ops := by
  refine ⟨createdIds_pairwise ops st, fun it hmem hin => ?_⟩
  have h1 := le_createdIds ops st it.id hin
  have h2 := hwf it hmem
  omega

/-- Witness for C9 on the run create–delete–create from the empty
store. -/
theorem c9_ids_never_reused_witness :
    (createdIds ⟨[], 0⟩
      [Op.create ⟨some "A", some 1⟩, Op.delete 0,
       Op.create ⟨some "B", some 2⟩]).Pairwise (· < ·) ∧
    ∀ it ∈ (⟨[], 0⟩ : Store).items,
      it.id ∉ createdIds ⟨[], 0⟩
        [Op.create ⟨some "A", some 1⟩, Op.delete 0,
         Op.create ⟨some "B", some 2⟩] :=
  c9_ids_never_reused ⟨[], 0⟩
    [Op.create ⟨some "A", some 1⟩, Op.delete 0,
     Op.create ⟨some "B", some 2⟩] (by decide)

end ItemsCrud
